import Mathlib

/-!
# Payment Authorization Reconciliation Engine — shallow embedding

This file embeds the payment core of the SeeAgain server (the durable
payments ledger, the capture/cancel logic, the webhook and job-outcome
entry points, and the stuck-authorization sweeper) as pure Lean
functions, and proves or refutes the specified properties about them.

Modelling conventions:
- The in-memory `paymentsStore` JS object is an association list
  `Store := List (String × PaymentRecord)`; JS object key semantics
  (update keeps position, new keys append) are mirrored by `putRecord`.
- `Date.now()` is an explicit `now : Nat` argument (milliseconds).
- The Stripe gateway (`stripe.paymentIntents.capture` / `.cancel`) is an
  external collaborator: each call either succeeds or throws, modelled
  by an explicit boolean outcome argument.  Every gateway invocation is
  recorded in a ghost trace `calls` so that call-counting properties can
  be stated.
- JS truthiness checks on strings (`!jobId`, `!record.paymentIntentId`)
  treat `null`/`undefined`/`""` as falsy; `truthyStr` mirrors this.
- `savePayments` / `loadPayments` are modelled at the JSON-value level:
  `savePayments` produces the JSON document `JSON.stringify` writes and
  `loadPayments` consumes the result of `JSON.parse` (absent file and
  read/parse failure are the `none` cases).
-/

namespace SeeAgain

/-- The status strings stored in payment records by the server. -/
inductive Status where
  | authorized
  | render_succeeded
  | render_failed
  | captured
  | canceled
  | capture_failed
  | cancel_failed
  | payment_failed
  deriving DecidableEq

/-- One entry of `payments.json`: the value stored under a jobId key.
`updatedAt` is absent until the first `markJobStatus`. -/
structure PaymentRecord where
  paymentIntentId : Option String
  sessionId : Option String
  status : Status
  createdAt : Nat
  updatedAt : Option Nat := none
  deriving DecidableEq

/-- The in-memory `paymentsStore`, as an association list in JS object
key order (insertion order for string keys). -/
abbrev Store := List (String × PaymentRecord)

/-- JS truthiness for an optional string: `null`, `undefined` and the
empty string are falsy. -/
def truthyStr : Option String → Option String
  | none => none
  | some s => if s = "" then none else some s

/-- `paymentsStore[jobId] || null`: first binding of the key wins (JS
objects cannot hold duplicate keys, so reachable stores are nodup). -/
def getPayment : Store → String → Option PaymentRecord
  | [], _ => none
  | (k, r) :: tl, jobId => if k = jobId then some r else getPayment tl jobId

/-- `paymentsStore[jobId] = record`: overwrite in place if the key
exists (keeping its position), otherwise append a new key. -/
def putRecord (s : Store) (jobId : String) (r : PaymentRecord) : Store :=
  if (getPayment s jobId).isSome then
    s.map (fun p => if p.1 = jobId then (jobId, r) else p)
  else
    s ++ [(jobId, r)]

/-- `recordPayment(jobId, paymentIntentId, sessionId)`: create a fresh
record in `authorized`; no-op when `jobId` is falsy or a record already
exists (idempotency for duplicate webhooks). -/
def recordPayment (now : Nat) (jobId paymentIntentId sessionId : String)
    (s : Store) : Store :=
  if jobId = "" then s
  else if (getPayment s jobId).isSome then s
  else putRecord s jobId
    { paymentIntentId := some paymentIntentId
      sessionId := some sessionId
      status := Status.authorized
      createdAt := now }

/-- `markJobStatus(jobId, status)`: unconditionally overwrite the status
and stamp `updatedAt`, provided the jobId is truthy and a record
exists. -/
def markJobStatus (now : Nat) (jobId : String) (st : Status)
    (s : Store) : Store :=
  if jobId = "" then s
  else
    match getPayment s jobId with
    | none => s
    | some r => putRecord s jobId { r with status := st, updatedAt := some now }

/-- `getPendingJobStatus(jobId)`: the record's status when it is one of
the two placeholder states, `null` otherwise. -/
def getPendingJobStatus (s : Store) (jobId : String) : Option Status :=
  match getPayment s jobId with
  | none => none
  | some r =>
    if r.status = Status.render_succeeded ∨ r.status = Status.render_failed then
      some r.status
    else none

/-- `recordJobCompletion(jobId, renderStatus)`: create a placeholder
record (null payment references) when none exists, otherwise fall
through to `markJobStatus`. -/
def recordJobCompletion (now : Nat) (jobId : String) (renderStatus : Status)
    (s : Store) : Store :=
  match getPayment s jobId with
  | none => putRecord s jobId
      { paymentIntentId := none
        sessionId := none
        status := renderStatus
        createdAt := now }
  | some _ => markJobStatus now jobId renderStatus s

/-- One invocation of the external Stripe gateway, tagged with the jobId
whose record triggered it (ghost data for the call-counting claims) and
the paymentIntent reference actually passed to Stripe. -/
inductive GwCall where
  | capture (jobId ref : String)
  | cancel (jobId ref : String)
  deriving DecidableEq

/-- The jobId a gateway call was issued for. -/
def GwCall.jobOf : GwCall → String
  | .capture j _ => j
  | .cancel j _ => j

/-- The ledger plus the ghost trace of gateway calls issued so far. -/
structure EngineState where
  store : Store
  calls : List GwCall := []
  deriving DecidableEq

/-- `capturePayment(jobId)` with `gwOk` the outcome of the (single)
`stripe.paymentIntents.capture` call it may make.  Returns the new state
and the boolean result. -/
def capturePayment (now : Nat) (gwOk : Bool) (jobId : String)
    (st : EngineState) : EngineState × Bool :=
  match getPayment st.store jobId with
  | none => (st, false)
  | some r =>
    match truthyStr r.paymentIntentId with
    | none => (st, false)
    | some ref =>
      if r.status = Status.captured then (st, true)
      else if r.status ≠ Status.authorized ∧ r.status ≠ Status.render_succeeded then
        (st, false)
      else
        let st1 : EngineState :=
          { st with calls := st.calls ++ [GwCall.capture jobId ref] }
        if gwOk then
          ({ st1 with store := markJobStatus now jobId Status.captured st1.store }, true)
        else
          ({ st1 with store := markJobStatus now jobId Status.capture_failed st1.store }, false)

/-- `cancelPayment(jobId)` with `gwOk` the outcome of the (single)
`stripe.paymentIntents.cancel` call it may make. -/
def cancelPayment (now : Nat) (gwOk : Bool) (jobId : String)
    (st : EngineState) : EngineState × Bool :=
  match getPayment st.store jobId with
  | none => (st, false)
  | some r =>
    match truthyStr r.paymentIntentId with
    | none => (st, false)
    | some ref =>
      if r.status = Status.canceled then (st, true)
      else if r.status ≠ Status.authorized ∧ r.status ≠ Status.render_failed then
        (st, false)
      else
        let st1 : EngineState :=
          { st with calls := st.calls ++ [GwCall.cancel jobId ref] }
        if gwOk then
          ({ st1 with store := markJobStatus now jobId Status.canceled st1.store }, true)
        else
          ({ st1 with store := markJobStatus now jobId Status.cancel_failed st1.store }, false)

/-- `handleJobCompletion(jobId, success)`: the job-outcome entry point.
When the record is missing or has no truthy payment reference, store the
completion as a placeholder; otherwise overwrite the status with the
render result and drive capture/cancel. -/
def handleJobCompletion (now : Nat) (gwOk : Bool) (jobId : String)
    (success : Bool) (st : EngineState) : EngineState :=
  let renderStatus := if success then Status.render_succeeded else Status.render_failed
  match getPayment st.store jobId with
  | none => { st with store := recordJobCompletion now jobId renderStatus st.store }
  | some r =>
    match truthyStr r.paymentIntentId with
    | none => { st with store := recordJobCompletion now jobId renderStatus st.store }
    | some _ =>
      let st1 : EngineState :=
        { st with store := markJobStatus now jobId renderStatus st.store }
      if success then (capturePayment now gwOk jobId st1).1
      else (cancelPayment now gwOk jobId st1).1

/-- In the pending-placeholder webhook branch, attach the payment
references to the existing record
(`paymentsStore[jobId].paymentIntentId = ...; .sessionId = ...`). -/
def setPaymentRefs (s : Store) (jobId paymentIntentId sessionId : String) : Store :=
  match getPayment s jobId with
  | none => s
  | some r => putRecord s jobId
      { r with paymentIntentId := some paymentIntentId, sessionId := some sessionId }

/-- The `checkout.session.completed` webhook case: `jobId?` and
`paymentIntentId?` are `session.metadata?.jobId` and
`session.payment_intent` (possibly absent), `sessionId` is
`session.id`.  `gwOk` is the outcome of the gateway call the delayed
completion branch may make. -/
def webhookCheckoutCompleted (now : Nat) (gwOk : Bool)
    (jobId? paymentIntentId? : Option String) (sessionId : String)
    (st : EngineState) : EngineState :=
  match truthyStr jobId?, truthyStr paymentIntentId? with
  | some jobId, some paymentIntentId =>
    match getPendingJobStatus st.store jobId with
    | some pending =>
      let st1 : EngineState :=
        { st with store := setPaymentRefs st.store jobId paymentIntentId sessionId }
      if pending = Status.render_succeeded then
        (capturePayment now gwOk jobId st1).1
      else if pending = Status.render_failed then
        (cancelPayment now gwOk jobId st1).1
      else st1
    | none =>
      { st with store := recordPayment now jobId paymentIntentId sessionId st.store }
  | _, _ => st

/-- The `checkout.session.async_payment_failed` webhook case. -/
def webhookAsyncPaymentFailed (now : Nat) (jobId? : Option String)
    (st : EngineState) : EngineState :=
  match truthyStr jobId? with
  | some jobId => { st with store := markJobStatus now jobId Status.payment_failed st.store }
  | none => st

/-- `AUTHORIZATION_TIMEOUT_MS = 2 * 60 * 60 * 1000`. -/
def AUTHORIZATION_TIMEOUT_MS : Nat := 2 * 60 * 60 * 1000

/-- One iteration of the sweep loop body for a snapshot entry: process
only `authorized` records older than the timeout. -/
def sweepStep (gw : String → Bool) (now : Nat) (st : EngineState)
    (entry : String × PaymentRecord) : EngineState :=
  if entry.2.status = Status.authorized ∧
      now - entry.2.createdAt > AUTHORIZATION_TIMEOUT_MS then
    (cancelPayment now (gw entry.1) entry.1 st).1
  else st

/-- `cleanupStuckAuthorizations()`: iterate the loop body over the
entries of the store; `gw` gives the gateway outcome for each record's
cancel call. -/
def cleanupStuckAuthorizations (gw : String → Bool) (now : Nat)
    (st : EngineState) : EngineState :=
  st.store.foldl (sweepStep gw now) st

/-- JSON values, for the durable `payments.json` document. -/
inductive Jval where
  | null
  | str (s : String)
  | num (n : Nat)
  | bool (b : Bool)
  | arr (items : List Jval)
  | obj (fields : List (String × Jval))

/-- The status strings as written by `JSON.stringify`. -/
def statusToString : Status → String
  | .authorized => "authorized"
  | .render_succeeded => "render_succeeded"
  | .render_failed => "render_failed"
  | .captured => "captured"
  | .canceled => "canceled"
  | .capture_failed => "capture_failed"
  | .cancel_failed => "cancel_failed"
  | .payment_failed => "payment_failed"

/-- Recognize a persisted status string. -/
def statusOfString (s : String) : Option Status :=
  if s = "authorized" then some Status.authorized
  else if s = "render_succeeded" then some Status.render_succeeded
  else if s = "render_failed" then some Status.render_failed
  else if s = "captured" then some Status.captured
  else if s = "canceled" then some Status.canceled
  else if s = "capture_failed" then some Status.capture_failed
  else if s = "cancel_failed" then some Status.cancel_failed
  else if s = "payment_failed" then some Status.payment_failed
  else none

/-- Encode an optional string reference the way `JSON.stringify` does
(`null` for a missing reference). -/
def encodeOptStr : Option String → Jval
  | none => Jval.null
  | some s => Jval.str s

/-- The JSON object `JSON.stringify` writes for one record; the
`updatedAt` key is present only once `markJobStatus` has stamped it. -/
def encodeRecord (r : PaymentRecord) : Jval :=
  Jval.obj
    ([("paymentIntentId", encodeOptStr r.paymentIntentId),
      ("sessionId", encodeOptStr r.sessionId),
      ("status", Jval.str (statusToString r.status)),
      ("createdAt", Jval.num r.createdAt)] ++
      (match r.updatedAt with
       | none => []
       | some t => [("updatedAt", Jval.num t)]))

/-- `savePayments()`: the JSON document written to `payments.json`
(`JSON.stringify(paymentsStore)`), one object field per jobId. -/
def savePayments (s : Store) : Jval :=
  Jval.obj (s.map (fun p => (p.1, encodeRecord p.2)))

/-- Read an optional string reference back from JSON. -/
def asOptStr : Jval → Option (Option String)
  | Jval.null => some none
  | Jval.str s => some (some s)
  | _ => none

/-- Read a number back from JSON. -/
def asNum : Jval → Option Nat
  | Jval.num n => some n
  | _ => none

/-- Read a status string back from JSON. -/
def asStatus : Jval → Option Status
  | Jval.str s => statusOfString s
  | _ => none

/-- Reinterpret one persisted JSON object as a record (the field shapes
the server itself writes; the JS code relies on this shape implicitly
whenever it reads the parsed record's properties). -/
def decodeRecord (j : Jval) : Option PaymentRecord :=
  match j with
  | Jval.obj fields => do
    let jpi ← fields.lookup "paymentIntentId"
    let pi ← asOptStr jpi
    let jsess ← fields.lookup "sessionId"
    let sess ← asOptStr jsess
    let jst ← fields.lookup "status"
    let stt ← asStatus jst
    let jc ← fields.lookup "createdAt"
    let created ← asNum jc
    let updated ←
      match fields.lookup "updatedAt" with
      | none => some none
      | some v => (asNum v).map some
    pure
      { paymentIntentId := pi
        sessionId := sess
        status := stt
        createdAt := created
        updatedAt := updated }
  | _ => none

/-- Reinterpret the parsed `payments.json` document as a ledger,
keeping the fields that have record shape. -/
def decodeStore : Jval → Store
  | Jval.obj fields =>
    fields.filterMap (fun p => (decodeRecord p.2).map (fun r => (p.1, r)))
  | _ => []

/-- `loadPayments()` at startup.  The argument is the durable
`payments.json` as observed: `none` when `fs.existsSync` is false (file
absent — the store keeps its initial `{}`), `some none` when reading or
`JSON.parse` throws (corrupt/unreadable — the catch block resets the
store to `{}`), and `some (some v)` when the file parses to `v`. -/
def loadPayments : Option (Option Jval) → Store
  | none => []
  | some none => []
  | some (some j) => decodeStore j

/-- The record shape `recordPayment` creates from an authorization
notice. -/
def authRec (pi sess : String) (now : Nat) : PaymentRecord :=
  { paymentIntentId := some pi
    sessionId := some sess
    status := Status.authorized
    createdAt := now }

/-- The placeholder record shape `recordJobCompletion` creates from an
early outcome notice. -/
def placeholderRec (stt : Status) (now : Nat) : PaymentRecord :=
  { paymentIntentId := none
    sessionId := none
    status := stt
    createdAt := now }

/-- A record with the payment references attached, as the delayed
webhook branch writes them. -/
def withRefs (r : PaymentRecord) (pi sess : String) : PaymentRecord :=
  { r with paymentIntentId := some pi, sessionId := some sess }

/-- The record `markJobStatus` writes: status overwritten, `updatedAt`
stamped. -/
def markRec (r : PaymentRecord) (stt : Status) (now : Nat) : PaymentRecord :=
  { r with status := stt, updatedAt := some now }

/-! ## Concrete scenario states -/

/-- The engine after: authorization webhook for job-1, then two
identical success outcome notices, every gateway call succeeding. -/
def duplicateOutcomeRun : EngineState :=
  handleJobCompletion 2 true "job-1" true
    (handleJobCompletion 1 true "job-1" true
      (webhookCheckoutCompleted 0 true (some "job-1") (some "pi_1") "sess_1"
        { store := [] }))

/-- An already-captured record, payment reference pi_1. -/
def capturedRecord1 : PaymentRecord :=
  { paymentIntentId := some "pi_1"
    sessionId := some "sess_1"
    status := Status.captured
    createdAt := 0
    updatedAt := some 1 }

/-- A ledger holding one already-captured record for job-1. -/
def capturedLedger : EngineState :=
  { store := [("job-1", capturedRecord1)] }

/-- A ledger holding one placeholder record (no payment reference yet)
for job-5. -/
def noIntentLedger : EngineState :=
  { store := [("job-5",
      { paymentIntentId := none
        sessionId := none
        status := Status.render_succeeded
        createdAt := 4 })] }

/-- A ledger holding one already-captured record for job-7. -/
def capturedLedger7 : EngineState :=
  { store := [("job-7",
      { paymentIntentId := some "pi_7"
        sessionId := some "sess_7"
        status := Status.captured
        createdAt := 0
        updatedAt := some 3 })] }

/-- A cancel_failed record created at time 0 (so arbitrarily old by
sweep time). -/
def cancelFailedRecord9 : PaymentRecord :=
  { paymentIntentId := some "pi_9"
    sessionId := some "sess_9"
    status := Status.cancel_failed
    createdAt := 0
    updatedAt := some 5 }

/-- A ledger holding one cancel_failed record for job-9. -/
def cancelFailedLedger : EngineState :=
  { store := [("job-9", cancelFailedRecord9)] }

/-- A stuck authorized record created at time 0. -/
def stuckRecord3 : PaymentRecord :=
  { paymentIntentId := some "pi_3"
    sessionId := some "sess_3"
    status := Status.authorized
    createdAt := 0 }

/-- A ledger holding one stuck authorized record for job-3. -/
def stuckAuthorizedLedger : EngineState :=
  { store := [("job-3", stuckRecord3)] }

/-! ## Helper lemmas about the store operations -/

theorem getPayment_map_overwrite (s : Store) (j : String) (r : PaymentRecord)
    (h : (getPayment s j).isSome) :
    getPayment (s.map (fun p => if p.1 = j then (j, r) else p)) j = some r := by
  induction s with
  | nil => simp [getPayment] at h
  | cons hd tl ih =>
    obtain ⟨k, v⟩ := hd
    simp only [List.map_cons]
    by_cases hk : k = j
    · rw [if_pos (show (k, v).1 = j from hk)]
      simp [getPayment]
    · rw [if_neg (show ¬((k, v).1 = j) from hk)]
      simp only [getPayment] at h ⊢
      rw [if_neg hk] at h ⊢
      exact ih h

theorem getPayment_map_overwrite_ne (s : Store) (j j' : String) (r : PaymentRecord)
    (h : j' ≠ j) :
    getPayment (s.map (fun p => if p.1 = j then (j, r) else p)) j' =
      getPayment s j' := by
  induction s with
  | nil => rfl
  | cons hd tl ih =>
    obtain ⟨k, v⟩ := hd
    simp only [List.map_cons]
    by_cases hk : k = j
    · rw [if_pos (show (k, v).1 = j from hk)]
      simp only [getPayment]
      rw [if_neg (show ¬(j = j') from fun hh => h hh.symm),
        if_neg (show ¬(k = j') from hk ▸ fun hh => h hh.symm)]
      exact ih
    · rw [if_neg (show ¬((k, v).1 = j) from hk)]
      simp only [getPayment]
      by_cases hkj : k = j'
      · rw [if_pos hkj, if_pos hkj]
      · rw [if_neg hkj, if_neg hkj]
        exact ih

theorem getPayment_append_of_none (s : Store) (j : String) (r : PaymentRecord)
    (h : getPayment s j = none) :
    getPayment (s ++ [(j, r)]) j = some r := by
  induction s with
  | nil => simp [getPayment]
  | cons hd tl ih =>
    obtain ⟨k, v⟩ := hd
    simp only [getPayment] at h
    simp only [List.cons_append, getPayment]
    by_cases hk : k = j
    · rw [if_pos hk] at h
      exact absurd h (by simp)
    · rw [if_neg hk] at h
      rw [if_neg hk]
      exact ih h

theorem getPayment_append_single_ne (s : Store) (j j' : String) (r : PaymentRecord)
    (h : j' ≠ j) :
    getPayment (s ++ [(j, r)]) j' = getPayment s j' := by
  induction s with
  | nil =>
    simp only [List.nil_append, getPayment]
    rw [if_neg (show ¬(j = j') from fun hh => h hh.symm)]
  | cons hd tl ih =>
    obtain ⟨k, v⟩ := hd
    simp only [List.cons_append, getPayment]
    by_cases hkj : k = j'
    · rw [if_pos hkj, if_pos hkj]
    · rw [if_neg hkj, if_neg hkj]
      exact ih

theorem getPayment_putRecord_self (s : Store) (j : String) (r : PaymentRecord) :
    getPayment (putRecord s j r) j = some r := by
  unfold putRecord
  by_cases h : (getPayment s j).isSome
  · rw [if_pos h]
    exact getPayment_map_overwrite s j r h
  · rw [if_neg h]
    exact getPayment_append_of_none s j r (by
      cases hg : getPayment s j
      · rfl
      · rw [hg] at h; simp at h)

theorem getPayment_putRecord_ne (s : Store) (j j' : String) (r : PaymentRecord)
    (h : j' ≠ j) :
    getPayment (putRecord s j r) j' = getPayment s j' := by
  unfold putRecord
  by_cases hs : (getPayment s j).isSome
  · rw [if_pos hs]
    exact getPayment_map_overwrite_ne s j j' r h
  · rw [if_neg hs]
    exact getPayment_append_single_ne s j j' r h

theorem getPayment_append_of_ne (pre rest : Store) (j : String)
    (h : ∀ e ∈ pre, e.1 ≠ j) :
    getPayment (pre ++ rest) j = getPayment rest j := by
  induction pre with
  | nil => rfl
  | cons hd tl ih =>
    obtain ⟨k, v⟩ := hd
    simp only [List.cons_append, getPayment]
    rw [if_neg (h (k, v) (List.mem_cons_self _ _))]
    exact ih (fun e he => h e (List.mem_cons_of_mem _ he))

theorem getPayment_markJobStatus_self (now : Nat) (j : String) (stt : Status)
    (s : Store) (r : PaymentRecord) (hj : j ≠ "") (hr : getPayment s j = some r) :
    getPayment (markJobStatus now j stt s) j =
      some { r with status := stt, updatedAt := some now } := by
  unfold markJobStatus
  rw [if_neg hj, hr]
  exact getPayment_putRecord_self s j _

theorem getPayment_markJobStatus_ne (now : Nat) (j j' : String) (stt : Status)
    (s : Store) (h : j' ≠ j) :
    getPayment (markJobStatus now j stt s) j' = getPayment s j' := by
  unfold markJobStatus
  by_cases hj : j = ""
  · rw [if_pos hj]
  · rw [if_neg hj]
    cases hr : getPayment s j
    · rfl
    · exact getPayment_putRecord_ne s j j' _ h

theorem markJobStatus_eq_putRecord (now : Nat) (j : String) (stt : Status)
    (s : Store) (r : PaymentRecord) (hj : j ≠ "") (hr : getPayment s j = some r) :
    markJobStatus now j stt s =
      putRecord s j { r with status := stt, updatedAt := some now } := by
  unfold markJobStatus
  rw [if_neg hj, hr]

/-! ## Helper lemmas about capture, cancel and the sweep -/

theorem cancelPayment_getPayment_ne (now : Nat) (g : Bool) (j j' : String)
    (st : EngineState) (h : j' ≠ j) :
    getPayment ((cancelPayment now g j st).1).store j' = getPayment st.store j' := by
  cases hr : getPayment st.store j with
  | none => simp only [cancelPayment, hr]
  | some r =>
    cases ht : truthyStr r.paymentIntentId with
    | none => simp only [cancelPayment, hr, ht]
    | some ref =>
      simp only [cancelPayment, hr, ht]
      by_cases h1 : r.status = Status.canceled
      · rw [if_pos h1]
      · rw [if_neg h1]
        by_cases h2 : r.status ≠ Status.authorized ∧ r.status ≠ Status.render_failed
        · rw [if_pos h2]
        · rw [if_neg h2]
          cases g
          · exact getPayment_markJobStatus_ne now j j' Status.cancel_failed st.store h
          · exact getPayment_markJobStatus_ne now j j' Status.canceled st.store h

theorem cancelPayment_calls_tail (now : Nat) (g : Bool) (j : String)
    (st : EngineState) :
    ∃ tail, (cancelPayment now g j st).1.calls = st.calls ++ tail ∧
      ∀ c ∈ tail, GwCall.jobOf c = j := by
  cases hr : getPayment st.store j with
  | none => exact ⟨[], by simp [cancelPayment, hr]⟩
  | some r =>
    cases ht : truthyStr r.paymentIntentId with
    | none => exact ⟨[], by simp [cancelPayment, hr, ht]⟩
    | some ref =>
      by_cases h1 : r.status = Status.canceled
      · exact ⟨[], by simp only [cancelPayment, hr, ht]; rw [if_pos h1]; simp⟩
      · by_cases h2 : r.status ≠ Status.authorized ∧ r.status ≠ Status.render_failed
        · exact ⟨[], by simp only [cancelPayment, hr, ht]; rw [if_neg h1, if_pos h2]; simp⟩
        · refine ⟨[GwCall.cancel j ref], ?_, ?_⟩
          · simp only [cancelPayment, hr, ht]
            rw [if_neg h1, if_neg h2]
            cases g <;> rfl
          · intro c hc
            simp only [List.mem_singleton] at hc
            subst hc
            rfl

theorem cancelPayment_success (now : Nat) (j ref : String) (st : EngineState)
    (r : PaymentRecord) (hj : j ≠ "")
    (hr : getPayment st.store j = some r)
    (href : truthyStr r.paymentIntentId = some ref)
    (hst : r.status = Status.authorized) :
    (cancelPayment now true j st).1.store =
      putRecord st.store j { r with status := Status.canceled, updatedAt := some now } ∧
    (cancelPayment now true j st).1.calls = st.calls ++ [GwCall.cancel j ref] := by
  simp only [cancelPayment, hr, href]
  rw [if_neg (show ¬(r.status = Status.canceled) from by
    rw [hst]; exact fun hh => by cases hh)]
  rw [if_neg (show ¬(r.status ≠ Status.authorized ∧ r.status ≠ Status.render_failed) from
    fun hh => hh.1 hst)]
  exact ⟨markJobStatus_eq_putRecord now j Status.canceled st.store r hj hr, rfl⟩

theorem capturePayment_success (now : Nat) (j ref : String) (st : EngineState)
    (r : PaymentRecord) (hj : j ≠ "")
    (hr : getPayment st.store j = some r)
    (href : truthyStr r.paymentIntentId = some ref)
    (hst : r.status = Status.authorized ∨ r.status = Status.render_succeeded) :
    (capturePayment now true j st).1.store =
      putRecord st.store j { r with status := Status.captured, updatedAt := some now } ∧
    (capturePayment now true j st).1.calls = st.calls ++ [GwCall.capture j ref] := by
  simp only [capturePayment, hr, href]
  rw [if_neg (show ¬(r.status = Status.captured) from by
    rcases hst with hst | hst <;> rw [hst] <;> exact fun hh => by cases hh)]
  rw [if_neg (show ¬(r.status ≠ Status.authorized ∧ r.status ≠ Status.render_succeeded) from
    fun hh => by
      rcases hst with hst | hst
      · exact hh.1 hst
      · exact hh.2 hst)]
  exact ⟨markJobStatus_eq_putRecord now j Status.captured st.store r hj hr, rfl⟩

theorem sweepStep_getPayment_ne (gw : String → Bool) (now : Nat)
    (st : EngineState) (e : String × PaymentRecord) (j : String) (h : j ≠ e.1) :
    getPayment (sweepStep gw now st e).store j = getPayment st.store j := by
  unfold sweepStep
  split
  · exact cancelPayment_getPayment_ne now (gw e.1) e.1 j st h
  · rfl

theorem sweepStep_calls_tail (gw : String → Bool) (now : Nat)
    (st : EngineState) (e : String × PaymentRecord) :
    ∃ tail, (sweepStep gw now st e).calls = st.calls ++ tail ∧
      ∀ c ∈ tail, GwCall.jobOf c = e.1 := by
  unfold sweepStep
  split
  · exact cancelPayment_calls_tail now (gw e.1) e.1 st
  · exact ⟨[], by simp⟩

theorem sweepFold_getPayment_ne (gw : String → Bool) (now : Nat) (j : String) :
    ∀ (l : List (String × PaymentRecord)) (st : EngineState),
      (∀ e ∈ l, e.1 ≠ j) →
      getPayment (l.foldl (sweepStep gw now) st).store j = getPayment st.store j := by
  intro l
  induction l with
  | nil => intro st _; rfl
  | cons hd tl ih =>
    intro st h
    simp only [List.foldl_cons]
    rw [ih _ (fun e he => h e (List.mem_cons_of_mem _ he))]
    exact sweepStep_getPayment_ne gw now st hd j
      (Ne.symm (h hd (List.mem_cons_self _ _)))

theorem sweepFold_calls_tail (gw : String → Bool) (now : Nat) :
    ∀ (l : List (String × PaymentRecord)) (st : EngineState),
      ∃ tail, (l.foldl (sweepStep gw now) st).calls = st.calls ++ tail ∧
        ∀ c ∈ tail, ∃ e ∈ l, GwCall.jobOf c = e.1 := by
  intro l
  induction l with
  | nil => intro st; exact ⟨[], by simp⟩
  | cons hd tl ih =>
    intro st
    simp only [List.foldl_cons]
    obtain ⟨t1, ht1, hmem1⟩ := sweepStep_calls_tail gw now st hd
    obtain ⟨t2, ht2, hmem2⟩ := ih (sweepStep gw now st hd)
    refine ⟨t1 ++ t2, ?_, ?_⟩
    · rw [ht2, ht1, List.append_assoc]
    · intro c hc
      rcases List.mem_append.mp hc with hc | hc
      · exact ⟨hd, List.mem_cons_self _ _, hmem1 c hc⟩
      · obtain ⟨e, he, hje⟩ := hmem2 c hc
        exact ⟨e, List.mem_cons_of_mem _ he, hje⟩

/-! ## Helper lemmas about persistence -/

theorem statusOfString_statusToString (stt : Status) :
    statusOfString (statusToString stt) = some stt := by
  cases stt <;> rfl

theorem decodeRecord_encodeRecord (r : PaymentRecord) :
    decodeRecord (encodeRecord r) = some r := by
  obtain ⟨pi, sess, stt, created, updated⟩ := r
  cases pi <;> cases sess <;> cases updated <;> cases stt <;> rfl

theorem decodeStore_savePayments (s : Store) :
    decodeStore (savePayments s) = s := by
  induction s with
  | nil => rfl
  | cons hd tl ih =>
    obtain ⟨k, v⟩ := hd
    simp only [savePayments, decodeStore, List.map_cons, List.filterMap_cons,
      decodeRecord_encodeRecord, Option.map_some'] at ih ⊢
    rw [ih]

/-! ## Entry-point reduction lemmas -/

theorem webhook_on_absent (now : Nat) (g : Bool) (j pi sess : String)
    (st : EngineState) (hj : j ≠ "") (hpi : pi ≠ "")
    (habs : getPayment st.store j = none) :
    webhookCheckoutCompleted now g (some j) (some pi) sess st =
      { st with store := putRecord st.store j (authRec pi sess now) } := by
  simp [webhookCheckoutCompleted, truthyStr, hj, hpi, getPendingJobStatus, habs,
    recordPayment, authRec]

theorem outcome_on_absent (now : Nat) (g : Bool) (j : String)
    (st : EngineState) (habs : getPayment st.store j = none) :
    handleJobCompletion now g j true st =
      { st with store :=
          putRecord st.store j (placeholderRec Status.render_succeeded now) } := by
  simp [handleJobCompletion, habs, recordJobCompletion, placeholderRec]

theorem outcome_success_drives_capture (now : Nat) (g : Bool) (j ref : String)
    (st : EngineState) (r : PaymentRecord)
    (hr : getPayment st.store j = some r)
    (href : truthyStr r.paymentIntentId = some ref) :
    handleJobCompletion now g j true st =
      (capturePayment now g j
        { st with
            store := markJobStatus now j Status.render_succeeded st.store }).1 := by
  simp [handleJobCompletion, hr, href]

theorem webhook_on_placeholder_succeeded (now : Nat) (g : Bool)
    (j pi sess : String) (st : EngineState) (r : PaymentRecord)
    (hj : j ≠ "") (hpi : pi ≠ "")
    (hr : getPayment st.store j = some r)
    (hst : r.status = Status.render_succeeded) :
    webhookCheckoutCompleted now g (some j) (some pi) sess st =
      (capturePayment now g j
        { st with store := putRecord st.store j (withRefs r pi sess) }).1 := by
  simp [webhookCheckoutCompleted, truthyStr, hj, hpi, getPendingJobStatus, hr,
    hst, setPaymentRefs, withRefs]

theorem capture_after_success_final (now : Nat) (j ref : String) (s : Store)
    (c : List GwCall) (r : PaymentRecord) (hj : j ≠ "")
    (hr : getPayment s j = some r)
    (href : truthyStr r.paymentIntentId = some ref)
    (hst : r.status = Status.authorized ∨ r.status = Status.render_succeeded) :
    (getPayment ((capturePayment now true j
        { store := s, calls := c }).1).store j).map
      PaymentRecord.status = some Status.captured := by
  obtain ⟨hs, -⟩ :=
    capturePayment_success now j ref { store := s, calls := c } r hj hr href hst
  rw [hs, getPayment_putRecord_self]
  rfl

/-! ## Claim theorems -/

/-- C1: the claim states that at most one of the gateway operations
capture/cancel is ever invoked per jobId, however often the
authorization and outcome notices are delivered.  The code violates
this: after authorize(job-1) and a successful outcome (one capture,
record captured), redelivering the same outcome notice overwrites the
terminal status with render_succeeded via `markJobStatus` and drives a
second gateway capture, so the trace holds two capture calls for
job-1's record. -/
theorem duplicate_outcome_double_capture :
    duplicateOutcomeRun.calls =
      [GwCall.capture "job-1" "pi_1", GwCall.capture "job-1" "pi_1"] := by
  decide

/-- C2: the claim states that delivering any further notice to a record
in `captured` is a no-op with no additional gateway call.  The code
violates this for the job-outcome notice: replaying a success outcome
on an already-captured record issues one more gateway capture call and,
when the gateway rejects that second capture, rewrites the record from
`captured` to `capture_failed` (and stamps a new `updatedAt`). -/
theorem replay_outcome_after_captured_not_noop :
    (handleJobCompletion 2 false "job-1" true capturedLedger).calls =
      [GwCall.capture "job-1" "pi_1"] ∧
    getPayment (handleJobCompletion 2 false "job-1" true capturedLedger).store
        "job-1" =
      some { paymentIntentId := some "pi_1", sessionId := some "sess_1",
             status := Status.capture_failed, createdAt := 0,
             updatedAt := some 2 } := by
  decide

/-- C3: starting from a ledger with no record for the job, delivering
the success outcome notice before the authorization notice yields the
same final record status — `captured`, given that the gateway capture
succeeds — as delivering the authorization notice first: the two event
orders commute on the final status. -/
theorem outcome_order_commutes (st : EngineState) (j pi sess : String)
    (n1 n2 : Nat) (hj : j ≠ "") (hpi : pi ≠ "")
    (habs : getPayment st.store j = none) :
    (getPayment ((handleJobCompletion n2 true j true
        (webhookCheckoutCompleted n1 true (some j) (some pi) sess st)).store)
      j).map PaymentRecord.status = some Status.captured ∧
    (getPayment ((webhookCheckoutCompleted n2 true (some j) (some pi) sess
        (handleJobCompletion n1 true j true st)).store) j).map
      PaymentRecord.status = some Status.captured := by
  have htr : truthyStr (some pi) = some pi := by simp [truthyStr, hpi]
  constructor
  · have hg1 : getPayment (putRecord st.store j (authRec pi sess n1)) j =
        some (authRec pi sess n1) := getPayment_putRecord_self _ _ _
    have e2 : handleJobCompletion n2 true j true
        { st with store := putRecord st.store j (authRec pi sess n1) } =
        (capturePayment n2 true j
          { st with store := markJobStatus n2 j Status.render_succeeded (putRecord st.store j (authRec pi sess n1)) }).1 :=
      outcome_success_drives_capture n2 true j pi _ (authRec pi sess n1) hg1 htr
    have e3 : markJobStatus n2 j Status.render_succeeded
        (putRecord st.store j (authRec pi sess n1)) =
        putRecord (putRecord st.store j (authRec pi sess n1)) j (markRec (authRec pi sess n1) Status.render_succeeded n2) :=
      markJobStatus_eq_putRecord n2 j Status.render_succeeded _ _ hj hg1
    rw [webhook_on_absent n1 true j pi sess st hj hpi habs, e2, e3]
    exact capture_after_success_final n2 j pi _ _ _ hj
      (getPayment_putRecord_self _ _ _) htr (Or.inr rfl)
  · have hg1 : getPayment
        (putRecord st.store j (placeholderRec Status.render_succeeded n1)) j =
        some (placeholderRec Status.render_succeeded n1) :=
      getPayment_putRecord_self _ _ _
    have e2 : webhookCheckoutCompleted n2 true (some j) (some pi) sess
        { st with store := putRecord st.store j (placeholderRec Status.render_succeeded n1) } =
        (capturePayment n2 true j
          { st with store := putRecord (putRecord st.store j (placeholderRec Status.render_succeeded n1)) j (withRefs (placeholderRec Status.render_succeeded n1) pi sess) }).1 :=
      webhook_on_placeholder_succeeded n2 true j pi sess _ _ hj hpi hg1 rfl
    rw [outcome_on_absent n1 true j st habs, e2]
    exact capture_after_success_final n2 j pi _ _ _ hj
      (getPayment_putRecord_self _ _ _) htr (Or.inr rfl)

theorem outcome_order_commutes_witness :
    ("job-1" : String) ≠ "" ∧ ("pi_1" : String) ≠ "" ∧
    getPayment ({ store := [], calls := [] } : EngineState).store "job-1" =
      none ∧
    ((getPayment ((handleJobCompletion 1 true "job-1" true
        (webhookCheckoutCompleted 0 true (some "job-1") (some "pi_1") "sess_1"
          { store := [], calls := [] })).store) "job-1").map
      PaymentRecord.status = some Status.captured ∧
    (getPayment ((webhookCheckoutCompleted 1 true (some "job-1") (some "pi_1")
        "sess_1" (handleJobCompletion 0 true "job-1" true
          { store := [], calls := [] })).store) "job-1").map
      PaymentRecord.status = some Status.captured) :=
  ⟨by decide, by decide, rfl,
   outcome_order_commutes { store := [], calls := [] } "job-1" "pi_1" "sess_1"
     0 1 (by decide) (by decide) rfl⟩

/-- C4: a single sweep pass attempts a cancel for every record that is
still `authorized` with age over the configured maximum pending
duration (and, being authorized, carries a payment reference): when
the gateway cancel succeeds, the sweep leaves that record `canceled`
with `updatedAt` stamped, and a cancel call for it appears in the
gateway trace. -/
theorem sweep_cancels_stuck_authorization (gw : String → Bool) (now : Nat)
    (st : EngineState) (j ref : String) (r : PaymentRecord)
    (hnodup : (st.store.map Prod.fst).Nodup)
    (hmem : (j, r) ∈ st.store) (hj : j ≠ "")
    (hstatus : r.status = Status.authorized)
    (hage : now - r.createdAt > AUTHORIZATION_TIMEOUT_MS)
    (href : truthyStr r.paymentIntentId = some ref)
    (hgw : gw j = true) :
    getPayment (cleanupStuckAuthorizations gw now st).store j =
      some (markRec r Status.canceled now) ∧
    GwCall.cancel j ref ∈ (cleanupStuckAuthorizations gw now st).calls := by
  obtain ⟨pre, post, hsplit⟩ := List.append_of_mem hmem
  have hkeys : (pre.map Prod.fst ++ j :: post.map Prod.fst).Nodup := by
    have h2 := hnodup
    rw [hsplit] at h2
    simpa using h2
  have hpre : ∀ e ∈ pre, e.1 ≠ j := by
    intro e he hej
    exact (List.nodup_append.mp hkeys).2.2
      (hej ▸ List.mem_map_of_mem Prod.fst he) (List.mem_cons_self _ _)
  have hpost : ∀ e ∈ post, e.1 ≠ j := by
    intro e he hej
    have h2 := (List.nodup_append.mp hkeys).2.1
    exact (List.nodup_cons.mp h2).1 (hej ▸ List.mem_map_of_mem Prod.fst he)
  have hr0 : getPayment st.store j = some r := by
    rw [hsplit, getPayment_append_of_ne pre _ j hpre]
    simp [getPayment]
  have hr1 : getPayment (List.foldl (sweepStep gw now) st pre).store j =
      some r := by
    rw [sweepFold_getPayment_ne gw now j pre st hpre]
    exact hr0
  have hcond : (j, r).2.status = Status.authorized ∧
      now - (j, r).2.createdAt > AUTHORIZATION_TIMEOUT_MS := ⟨hstatus, hage⟩
  have hstep : sweepStep gw now (List.foldl (sweepStep gw now) st pre) (j, r) =
      (cancelPayment now true j (List.foldl (sweepStep gw now) st pre)).1 := by
    unfold sweepStep
    rw [if_pos hcond]
    show (cancelPayment now (gw j) j (List.foldl (sweepStep gw now) st pre)).1 =
      (cancelPayment now true j (List.foldl (sweepStep gw now) st pre)).1
    rw [hgw]
  obtain ⟨hcs, hcc⟩ := cancelPayment_success now j ref
    (List.foldl (sweepStep gw now) st pre) r hj hr1 href hstatus
  unfold cleanupStuckAuthorizations
  rw [hsplit, List.foldl_append, List.foldl_cons, hstep]
  constructor
  · rw [sweepFold_getPayment_ne gw now j post _ hpost, hcs,
      getPayment_putRecord_self]
    rfl
  · obtain ⟨tail, htail, -⟩ := sweepFold_calls_tail gw now post
      ((cancelPayment now true j (List.foldl (sweepStep gw now) st pre)).1)
    rw [htail, hcc]
    exact List.mem_append_left _
      (List.mem_append_right _ (List.mem_singleton_self _))

theorem sweep_cancels_stuck_authorization_witness :
    (stuckAuthorizedLedger.store.map Prod.fst).Nodup ∧
    ("job-3", stuckRecord3) ∈ stuckAuthorizedLedger.store ∧
    ("job-3" : String) ≠ "" ∧
    stuckRecord3.status = Status.authorized ∧
    7200001 - stuckRecord3.createdAt > AUTHORIZATION_TIMEOUT_MS ∧
    truthyStr stuckRecord3.paymentIntentId = some "pi_3" ∧
    (fun _ => true : String → Bool) "job-3" = true ∧
    (getPayment (cleanupStuckAuthorizations (fun _ => true) 7200001
        stuckAuthorizedLedger).store "job-3" =
      some (markRec stuckRecord3 Status.canceled 7200001) ∧
    GwCall.cancel "job-3" "pi_3" ∈
      (cleanupStuckAuthorizations (fun _ => true) 7200001
        stuckAuthorizedLedger).calls) :=
  ⟨by decide, by decide, by decide, by decide, by decide, by decide, rfl,
   sweep_cancels_stuck_authorization (fun _ => true) 7200001
     stuckAuthorizedLedger "job-3" "pi_3" stuckRecord3 (by decide) (by decide)
     (by decide) (by decide) (by decide) (by decide) rfl⟩

/-- C5 amended: a `cancel_failed` record is never retried by the
sweep, whatever its age: the sweep body skips every record whose
status is not `authorized` (and `cancelPayment` would reject the
status anyway), so a sweep pass leaves the record exactly as it was
and issues no gateway call for its jobId. -/
theorem sweep_leaves_cancel_failed (gw : String → Bool) (now : Nat)
    (st : EngineState) (j : String) (r : PaymentRecord)
    (hnodup : (st.store.map Prod.fst).Nodup)
    (hmem : (j, r) ∈ st.store)
    (hstatus : r.status = Status.cancel_failed) :
    getPayment (cleanupStuckAuthorizations gw now st).store j = some r ∧
    ∀ c ∈ (cleanupStuckAuthorizations gw now st).calls,
      c ∈ st.calls ∨ GwCall.jobOf c ≠ j := by
  obtain ⟨pre, post, hsplit⟩ := List.append_of_mem hmem
  have hkeys : (pre.map Prod.fst ++ j :: post.map Prod.fst).Nodup := by
    have h2 := hnodup
    rw [hsplit] at h2
    simpa using h2
  have hpre : ∀ e ∈ pre, e.1 ≠ j := by
    intro e he hej
    exact (List.nodup_append.mp hkeys).2.2
      (hej ▸ List.mem_map_of_mem Prod.fst he) (List.mem_cons_self _ _)
  have hpost : ∀ e ∈ post, e.1 ≠ j := by
    intro e he hej
    have h2 := (List.nodup_append.mp hkeys).2.1
    exact (List.nodup_cons.mp h2).1 (hej ▸ List.mem_map_of_mem Prod.fst he)
  have hr0 : getPayment st.store j = some r := by
    rw [hsplit, getPayment_append_of_ne pre _ j hpre]
    simp [getPayment]
  have hstep : sweepStep gw now (List.foldl (sweepStep gw now) st pre) (j, r) =
      List.foldl (sweepStep gw now) st pre := by
    have hc : ¬((j, r).2.status = Status.authorized ∧
        now - (j, r).2.createdAt > AUTHORIZATION_TIMEOUT_MS) := fun hcon =>
      absurd (hcon.1.symm.trans hstatus) (by decide)
    unfold sweepStep
    rw [if_neg hc]
  unfold cleanupStuckAuthorizations
  rw [hsplit, List.foldl_append, List.foldl_cons, hstep]
  constructor
  · rw [sweepFold_getPayment_ne gw now j post _ hpost,
      sweepFold_getPayment_ne gw now j pre st hpre]
    exact hr0
  · intro c hc2
    obtain ⟨t1, ht1, hm1⟩ := sweepFold_calls_tail gw now pre st
    obtain ⟨t2, ht2, hm2⟩ := sweepFold_calls_tail gw now post
      (List.foldl (sweepStep gw now) st pre)
    rw [ht2, ht1] at hc2
    rcases List.mem_append.mp hc2 with hc3 | hc3
    · rcases List.mem_append.mp hc3 with hc4 | hc4
      · exact Or.inl hc4
      · obtain ⟨e, he, hje⟩ := hm1 c hc4
        exact Or.inr (fun hcj => hpre e he (hje.symm.trans hcj))
    · obtain ⟨e, he, hje⟩ := hm2 c hc3
      exact Or.inr (fun hcj => hpost e he (hje.symm.trans hcj))

theorem sweep_leaves_cancel_failed_witness :
    (cancelFailedLedger.store.map Prod.fst).Nodup ∧
    ("job-9", cancelFailedRecord9) ∈ cancelFailedLedger.store ∧
    cancelFailedRecord9.status = Status.cancel_failed ∧
    (getPayment (cleanupStuckAuthorizations (fun _ => true) 100000000
        cancelFailedLedger).store "job-9" = some cancelFailedRecord9 ∧
    ∀ c ∈ (cleanupStuckAuthorizations (fun _ => true) 100000000
        cancelFailedLedger).calls,
      c ∈ cancelFailedLedger.calls ∨ GwCall.jobOf c ≠ "job-9") :=
  ⟨by decide, by decide, by decide,
   sweep_leaves_cancel_failed (fun _ => true) 100000000 cancelFailedLedger
     "job-9" cancelFailedRecord9 (by decide) (by decide) (by decide)⟩

/-- C5 counterexample: the claim states that a `cancel_failed` record
whose age exceeds the timeout is retried by a later sweep pass.  In the
code the sweep skips every record whose status is not `authorized`: a
sweep pass over a ledger holding only an old `cancel_failed` record
leaves the engine state entirely unchanged (no gateway call, no
transition). -/
theorem sweep_skips_cancel_failed_cex :
    cleanupStuckAuthorizations (fun _ => true) 100000000 cancelFailedLedger =
      cancelFailedLedger := by
  decide

/-- C6: `loadPayments` never fails: both failure inputs (file absent,
and read/parse throwing on a corrupt or unreadable file) leave the
store as the empty ledger instead of raising. -/
theorem loadPayments_tolerates_missing_or_corrupt :
    loadPayments none = [] ∧ loadPayments (some none) = [] :=
  ⟨rfl, rfl⟩

/-- C8 counterexample: the claim states that `captured` is terminal
under every operation, including webhook event handling.  The
`checkout.session.async_payment_failed` webhook case calls
`markJobStatus(jobId, "payment_failed")` with no terminal-state guard,
moving an already-captured record for job-7 out of `captured` into
`payment_failed`. -/
theorem async_failure_overwrites_captured_cex :
    getPayment (webhookAsyncPaymentFailed 9 (some "job-7")
        capturedLedger7).store "job-7" =
      some { paymentIntentId := some "pi_7", sessionId := some "sess_7",
             status := Status.payment_failed, createdAt := 0,
             updatedAt := some 9 } := by
  decide

/-- C9: persisting any ledger with `savePayments` and reloading it with
`loadPayments` (a simulated process restart) reproduces exactly the
same jobId-to-record map: every paymentIntentId, sessionId, status and
timestamp survives the round trip. -/
theorem save_load_roundtrip (s : Store) (h : (s.map Prod.fst).Nodup) :
    loadPayments (some (some (savePayments s))) = s :=
  decodeStore_savePayments s

theorem save_load_roundtrip_witness :
    (([("job-1", { paymentIntentId := some "pi_1", sessionId := some "sess_1",
                   status := Status.captured, createdAt := 5,
                   updatedAt := some 9 }),
       ("job-2", { paymentIntentId := none, sessionId := none,
                   status := Status.render_failed, createdAt := 7,
                   updatedAt := none })] : Store).map Prod.fst).Nodup ∧
    loadPayments (some (some (savePayments
      [("job-1", { paymentIntentId := some "pi_1", sessionId := some "sess_1",
                   status := Status.captured, createdAt := 5,
                   updatedAt := some 9 }),
       ("job-2", { paymentIntentId := none, sessionId := none,
                   status := Status.render_failed, createdAt := 7,
                   updatedAt := none })]))) =
      [("job-1", { paymentIntentId := some "pi_1", sessionId := some "sess_1",
                   status := Status.captured, createdAt := 5,
                   updatedAt := some 9 }),
       ("job-2", { paymentIntentId := none, sessionId := none,
                   status := Status.render_failed, createdAt := 7,
                   updatedAt := none })] :=
  ⟨by decide, save_load_roundtrip _ (by decide)⟩

/-- C7: when a jobId has no record, or its record carries no truthy
paymentIntentId, neither `capturePayment` nor `cancelPayment` touches
the gateway: both return false with the engine state (ledger and call
trace) unchanged, so a known payment reference is a precondition of
every gateway capture or cancel. -/
theorem no_gateway_call_without_intent (now : Nat) (g : Bool) (j : String)
    (st : EngineState)
    (h : (getPayment st.store j).bind
      (fun r => truthyStr r.paymentIntentId) = none) :
    capturePayment now g j st = (st, false) ∧
    cancelPayment now g j st = (st, false) := by
  cases hr : getPayment st.store j with
  | none => exact ⟨by simp [capturePayment, hr], by simp [cancelPayment, hr]⟩
  | some r =>
    rw [hr] at h
    simp only [Option.some_bind] at h
    exact ⟨by simp [capturePayment, hr, h], by simp [cancelPayment, hr, h]⟩

theorem no_gateway_call_without_intent_witness :
    (getPayment noIntentLedger.store "job-5").bind
      (fun r => truthyStr r.paymentIntentId) = none ∧
    (capturePayment 7 true "job-5" noIntentLedger = (noIntentLedger, false) ∧
     cancelPayment 7 true "job-5" noIntentLedger = (noIntentLedger, false)) :=
  ⟨by decide, no_gateway_call_without_intent 7 true "job-5" noIntentLedger
    (by decide)⟩

/-- C8 amended: in the code, `captured`, `canceled` and
`payment_failed` are preserved by `capturePayment`, `cancelPayment`,
`recordPayment` and the `checkout.session.completed` webhook handler
(each is a no-op on such a record); they are not preserved by the
unguarded `markJobStatus`-based paths, namely job-outcome handling and
the async-payment-failure webhook (see the counterexample). -/
theorem terminal_preserved_by_capture_cancel_webhook
    (now : Nat) (g : Bool) (j pi2 sess : String) (st : EngineState)
    (r : PaymentRecord) (hr : getPayment st.store j = some r)
    (hterm : r.status = Status.captured ∨ r.status = Status.canceled ∨
      r.status = Status.payment_failed) :
    (capturePayment now g j st).1 = st ∧
    (cancelPayment now g j st).1 = st ∧
    recordPayment now j pi2 sess st.store = st.store ∧
    webhookCheckoutCompleted now g (some j) (some pi2) sess st = st := by
  refine ⟨?_, ?_, ?_, ?_⟩
  · cases ht : truthyStr r.paymentIntentId with
    | none => simp [capturePayment, hr, ht]
    | some ref =>
      rcases hterm with h | h | h <;> simp [capturePayment, hr, ht, h]
  · cases ht : truthyStr r.paymentIntentId with
    | none => simp [cancelPayment, hr, ht]
    | some ref =>
      rcases hterm with h | h | h <;> simp [cancelPayment, hr, ht, h]
  · simp [recordPayment, hr]
  · by_cases hj : j = ""
    · simp [webhookCheckoutCompleted, truthyStr, hj]
    · by_cases hpi : pi2 = ""
      · simp [webhookCheckoutCompleted, truthyStr, hj, hpi]
      · rcases hterm with h | h | h <;>
          simp [webhookCheckoutCompleted, truthyStr, hj, hpi,
            getPendingJobStatus, hr, h, recordPayment]

theorem terminal_preserved_witness :
    getPayment capturedLedger.store "job-1" = some capturedRecord1 ∧
    ((capturePayment 6 true "job-1" capturedLedger).1 = capturedLedger ∧
    (cancelPayment 6 true "job-1" capturedLedger).1 = capturedLedger ∧
    recordPayment 6 "job-1" "pi_x" "sess_x" capturedLedger.store =
      capturedLedger.store ∧
    webhookCheckoutCompleted 6 true (some "job-1") (some "pi_x") "sess_x"
        capturedLedger = capturedLedger) :=
  ⟨by decide,
   terminal_preserved_by_capture_cancel_webhook 6 true "job-1" "pi_x" "sess_x"
     capturedLedger capturedRecord1 (by decide) (Or.inl (by decide))⟩

/-- C10: for a record with a truthy paymentIntentId (and a truthy
jobId, the only kind the engine writes), `capturePayment` returns true
exactly when the record's status on return is `captured`: true for an
already-captured record (no new gateway call), true after a successful
capture, and false in every other case, including a failed capture
(`capture_failed`) and every invalid starting status. -/
theorem capturePayment_true_iff_captured (now : Nat) (g : Bool)
    (j ref : String) (st : EngineState) (r : PaymentRecord) (hj : j ≠ "")
    (hr : getPayment st.store j = some r)
    (href : truthyStr r.paymentIntentId = some ref) :
    (capturePayment now g j st).2 = true ↔
      (getPayment (capturePayment now g j st).1.store j).map
        PaymentRecord.status = some Status.captured := by
  have hok := getPayment_markJobStatus_self now j Status.captured st.store r hj hr
  have hfail :=
    getPayment_markJobStatus_self now j Status.capture_failed st.store r hj hr
  cases hst : r.status
  case authorized =>
    cases g <;> simp [capturePayment, hr, href, hst, hok, hfail]
  case render_succeeded =>
    cases g <;> simp [capturePayment, hr, href, hst, hok, hfail]
  case captured => simp [capturePayment, hr, href, hst]
  case render_failed => simp [capturePayment, hr, href, hst]
  case canceled => simp [capturePayment, hr, href, hst]
  case capture_failed => simp [capturePayment, hr, href, hst]
  case cancel_failed => simp [capturePayment, hr, href, hst]
  case payment_failed => simp [capturePayment, hr, href, hst]

theorem capturePayment_true_iff_captured_witness :
    ("job-1" : String) ≠ "" ∧
    getPayment capturedLedger.store "job-1" = some capturedRecord1 ∧
    truthyStr capturedRecord1.paymentIntentId = some "pi_1" ∧
    ((capturePayment 8 true "job-1" capturedLedger).2 = true ↔
      (getPayment (capturePayment 8 true "job-1" capturedLedger).1.store
          "job-1").map PaymentRecord.status = some Status.captured) :=
  ⟨by decide, by decide, by decide,
   capturePayment_true_iff_captured 8 true "job-1" "pi_1" capturedLedger
     capturedRecord1 (by decide) (by decide) (by decide)⟩

end SeeAgain
